import Mathlib

/-!
Verification development for the gold tick-scalping bot
(source file gold_tick5t.py, class GoldScalperBot).

The definitions below are a shallow embedding of the decision logic of the
bot: prices, volumes and point values are modelled as rationals, the
MetaTrader venue is abstracted away, and each management / signal rule is
translated clause by clause from the Python source.  Where the Python code
performs IEEE-754 float operations whose infinity/NaN behaviour matters
(the RSI pipeline), an explicit extended-value type PF mirrors that
semantics.
-/

namespace GoldBot

/-- Trade side, mirroring mt5.ORDER_TYPE_BUY / mt5.ORDER_TYPE_SELL. -/
inductive Side where
  | buy
  | sell
deriving DecidableEq

/-- Reason attached to a full-position closure issued by manage_positions. -/
inductive CloseReason where
  | timeExit
  | maxAdverse
deriving DecidableEq

/-- An execution intent emitted by manage_positions for one position:
a partial close of the given volume, a stop modification (take profit is
passed through unchanged by the source, so only the stop is recorded), or
a full closure with its reason. -/
inductive Action where
  | partClose (vol : ℚ)
  | modifySl (sl : ℚ)
  | close (reason : CloseReason)
deriving DecidableEq

/-- Bot configuration constants (class attributes of GoldScalperBot, the
subset the embedded logic reads).  Default values are the literals from the
source. -/
structure Config where
  slPoints : ℚ := 150
  tpPoints : ℚ := 500
  aggressiveSlPercentTrigger : ℚ := 1/5
  aggressiveSlFixedBufferForTrigger : ℚ := 5
  aggressiveSlMinDistanceFromCurrent : ℚ := 5
  srBreachBufferPoints : ℚ := 3
  maxAdverseExcursionClosePoints : ℚ := 200
  atrMultiplier : ℚ := 1
  maxHoldTimeSeconds : ℚ := 120
  partProfitTriggerPoints : ℚ := 150
  partProfitPercentage : ℚ := 1/2
  breakEvenProfitPoints : ℚ := 75
  breakEvenBufferPoints : ℚ := 22
  rsiOverbought : ℚ := 65
  rsiOversold : ℚ := 35
  stochasticOverbought : ℚ := 75
  stochasticOversold : ℚ := 25
  maxSpreadPoints : ℚ := 35
  numConcurrentTrades : ℕ := 50
  tradeEntryCooldownSeconds : ℚ := 10
  riskPercentPerTrade : ℚ := 3/100
  cooldownAfterTradeSeconds : ℚ := 60
  reversalConfirmationBars : ℕ := 1
  dynamicTpAtrMultiplier : ℚ := 2
  minDynamicTpPoints : ℚ := 50
  maxDynamicTpPoints : ℚ := 1000


/-- The configuration holding exactly the literal constants of the class. -/
def defaultConfig : Config := {}

/-- Venue symbol metadata (mt5.symbol_info fields the bot stores). -/
structure SymbolMeta where
  point : ℚ
  volumeMin : ℚ
  volumeMax : ℚ
  volumeStep : ℚ
  tradeStopLevelPoints : ℚ


/-- One open position as seen by manage_positions: the venue-reported
fields plus the tracked open time (None when the tracker lost it) and the
partial-profit flag from tracked_positions. -/
structure Position where
  side : Side
  entryPrice : ℚ
  currentSl : ℚ
  currentTp : ℚ
  volume : ℚ
  heldSeconds : Option ℚ
  partTaken : Bool


/-- Market context for one management cycle: live bid/ask, the latest ATR
value when computable, the S/R lookback extremes when enough bars exist
(None embeds the plus/minus-infinity sentinels of the source, whose breach
test then always fails), and the latest closed custom bar close. -/
structure MarketCtx where
  bid : ℚ
  ask : ℚ
  atr : Option ℚ
  prevHighInPeriod : Option ℚ
  prevLowInPeriod : Option ℚ
  lastBarClose : Option ℚ


/-- Unrealized profit in points (source: profit_points). -/
def profitPoints (meta : SymbolMeta) (mkt : MarketCtx) (pos : Position) : ℚ :=
  match pos.side with
  | .buy => (mkt.bid - pos.entryPrice) / meta.point
  | .sell => (pos.entryPrice - mkt.ask) / meta.point

/-- Adverse excursion in points (source: current_adverse_excursion_points). -/
def adversePoints (meta : SymbolMeta) (mkt : MarketCtx) (pos : Position) : ℚ :=
  match pos.side with
  | .buy => (pos.entryPrice - mkt.bid) / meta.point
  | .sell => (mkt.ask - pos.entryPrice) / meta.point

/-- Partial profit taking block of manage_positions (source lines 719-746).
The floor division `volume_to_close // volume_step` of Python is `Int.floor`
on rationals; a successful venue close is assumed for the follow-up stop
move, whose comparison uses the stop fetched at cycle start. -/
def partActs (cfg : Config) (meta : SymbolMeta) (mkt : MarketCtx)
    (pos : Position) : List Action :=
  if pos.partTaken = false ∧
      profitPoints meta mkt pos ≥ cfg.partProfitTriggerPoints ∧
      pos.volume > meta.volumeMin then
    let v0 := pos.volume * cfg.partProfitPercentage
    let v1 := (⌊v0 / meta.volumeStep⌋ : ℚ) * meta.volumeStep
    let vtc := max v1 meta.volumeMin
    let rem := pos.volume - vtc
    if rem ≥ meta.volumeMin ∨ (rem < meta.volumeMin ∧ rem < meta.volumeStep / 2) then
      Action.partClose vtc ::
        (match pos.side with
         | .buy =>
           let ns := pos.entryPrice + cfg.breakEvenBufferPoints * meta.point
           if ns > pos.currentSl then [Action.modifySl ns] else []
         | .sell =>
           let ns := pos.entryPrice - cfg.breakEvenBufferPoints * meta.point
           if ns < pos.currentSl then [Action.modifySl ns] else [])
    else []
  else []

/-- Time-based-exit trigger (source lines 749-753): held beyond the maximum
hold time with non-positive profit. -/
def timeExitTriggered (cfg : Config) (meta : SymbolMeta) (mkt : MarketCtx)
    (pos : Position) : Prop :=
  match pos.heldSeconds with
  | some h => h > cfg.maxHoldTimeSeconds ∧ profitPoints meta mkt pos ≤ 0
  | none => False

instance (cfg meta mkt pos) : Decidable (timeExitTriggered cfg meta mkt pos) := by
  unfold timeExitTriggered
  exact match pos.heldSeconds with
  | some _ => instDecidableAnd
  | none => instDecidableFalse

/-- Aggressive loss limiter / break-even elif chain (source lines 760-834),
evaluated only when neither closing rule fired. -/
def stageTwoActs (cfg : Config) (meta : SymbolMeta) (mkt : MarketCtx)
    (pos : Position) : List Action :=
  let profit := profitPoints meta mkt pos
  let adverse := adversePoints meta mkt pos
  let dynTrigger := cfg.slPoints * cfg.aggressiveSlPercentTrigger +
    cfg.aggressiveSlFixedBufferForTrigger
  if profit < 0 ∧ adverse ≥ dynTrigger then
    let trigLevel : ℚ :=
      match pos.side with
      | .buy => pos.entryPrice - dynTrigger * meta.point
      | .sell => pos.entryPrice + dynTrigger * meta.point
    let momentum : Bool :=
      match mkt.lastBarClose with
      | some c =>
        match pos.side with
        | .buy => decide (c < trigLevel)
        | .sell => decide (c > trigLevel)
      | none => false
    if momentum then
      let abuf := max cfg.aggressiveSlMinDistanceFromCurrent
        (meta.tradeStopLevelPoints + 5)
      match pos.side with
      | .buy =>
        let s1 := mkt.bid - abuf * meta.point
        let cand :=
          match mkt.prevLowInPeriod with
          | some pl =>
            if mkt.bid < pl then max s1 (pl - cfg.srBreachBufferPoints * meta.point)
            else s1
          | none => s1
        if cand < pos.currentSl then [Action.modifySl cand] else []
      | .sell =>
        let s1 := mkt.ask + abuf * meta.point
        let cand :=
          match mkt.prevHighInPeriod with
          | some ph =>
            if mkt.ask > ph then min s1 (ph + cfg.srBreachBufferPoints * meta.point)
            else s1
          | none => s1
        if cand > pos.currentSl then [Action.modifySl cand] else []
    else []
  else if profit ≥ cfg.breakEvenProfitPoints then
    match pos.side with
    | .buy =>
      let ns := pos.entryPrice + cfg.breakEvenBufferPoints * meta.point
      if ns > pos.currentSl then [Action.modifySl ns] else []
    | .sell =>
      let ns := pos.entryPrice - cfg.breakEvenBufferPoints * meta.point
      if ns < pos.currentSl then [Action.modifySl ns] else []
  else []

/-- ATR trailing stop block (source lines 837-857). -/
def trailingActs (cfg : Config) (meta : SymbolMeta) (mkt : MarketCtx)
    (pos : Position) : List Action :=
  match mkt.atr with
  | some a =>
    if profitPoints meta mkt pos > cfg.breakEvenProfitPoints then
      let dist := a * cfg.atrMultiplier
      match pos.side with
      | .buy =>
        let nts := mkt.bid - dist * meta.point
        let be := pos.entryPrice + cfg.breakEvenBufferPoints * meta.point
        if nts > pos.currentSl ∧ nts > be then [Action.modifySl nts] else []
      | .sell =>
        let nts := mkt.ask + dist * meta.point
        let be := pos.entryPrice - cfg.breakEvenBufferPoints * meta.point
        if nts < pos.currentSl ∧ nts < be then [Action.modifySl nts] else []
    else []
  | none => []

/-- All actions manage_positions emits for one position in one evaluation
cycle, in source order: partial profit taking first, then the time-based
exit (which stops the cycle for this position), then the max-adverse
excursion kill switch (same), then the aggressive/break-even chain, then
the ATR trailing stop. -/
def managePosition (cfg : Config) (meta : SymbolMeta) (mkt : MarketCtx)
    (pos : Position) : List Action :=
  let acts := partActs cfg meta mkt pos
  if timeExitTriggered cfg meta mkt pos then acts ++ [Action.close .timeExit]
  else if adversePoints meta mkt pos ≥ cfg.maxAdverseExcursionClosePoints then
    acts ++ [Action.close .maxAdverse]
  else acts ++ stageTwoActs cfg meta mkt pos ++ trailingActs cfg meta mkt pos

/-- One raw venue tick (mt5.copy_ticks_from row): time in nanoseconds
(time_msc scaled), bid, ask and real volume. -/
structure Tick where
  timeNs : ℕ
  bid : ℚ
  ask : ℚ
  volumeReal : ℚ
deriving DecidableEq

/-- Mid price of a tick (source column bid_ask_avg). -/
def tickMid (t : Tick) : ℚ := (t.bid + t.ask) / 2

/-- Bucket start time of a tick: the tick time floored to a multiple of the
bar interval (source: time // (interval * 10^9) * (interval * 10^9)). -/
def barTimeOf (intervalNs : ℕ) (t : Tick) : ℕ :=
  t.timeNs / intervalNs * intervalNs

/-- One custom OHLCV bar built from tick mid prices. -/
structure Bar where
  barStartTime : ℕ
  openPrice : ℚ
  highPrice : ℚ
  lowPrice : ℚ
  closePrice : ℚ
  realVolume : ℚ
deriving DecidableEq

/-- Maximum of a list of rationals, 0 on the empty list (only applied to
nonempty tick groups). -/
def listMax : List ℚ → ℚ
  | [] => 0
  | x :: xs => xs.foldl max x

/-- Minimum of a list of rationals, 0 on the empty list. -/
def listMin : List ℚ → ℚ
  | [] => 0
  | x :: xs => xs.foldl min x

/-- The distinct bucket start times of a tick batch in ascending order
(pandas groupby sorts its keys). -/
def bucketKeys (intervalNs : ℕ) (ticks : List Tick) : List ℕ :=
  ((ticks.map (barTimeOf intervalNs)).toFinset).sort (· ≤ ·)

/-- The OHLCV aggregate of the ticks falling in one bucket, in batch order:
open is the first mid, close the last, high/low the max/min, volume the sum
of real volumes (source: groupby(bar_time).agg(first/max/min/last, sum)). -/
def barOfBucket (intervalNs : ℕ) (ticks : List Tick) (b : ℕ) : Bar :=
  let group := ticks.filter (fun t => barTimeOf intervalNs t = b)
  let mids := group.map tickMid
  { barStartTime := b
    openPrice := mids.headD 0
    highPrice := listMax mids
    lowPrice := listMin mids
    closePrice := mids.getLastD 0
    realVolume := (group.map Tick.volumeReal).sum }

/-- The bar series built from one tick batch
(source: get_custom_bars_from_ticks). -/
def getCustomBarsFromTicks (intervalNs : ℕ) (ticks : List Tick) : List Bar :=
  (bucketKeys intervalNs ticks).map (barOfBucket intervalNs ticks)

/-- Row-value equality used by DataFrame.drop_duplicates, which compares the
columns only: the index (bar_start_time) does not participate. -/
def barValuesEq (a b : Bar) : Bool :=
  a.openPrice = b.openPrice ∧ a.highPrice = b.highPrice ∧
    a.lowPrice = b.lowPrice ∧ a.closePrice = b.closePrice ∧
    a.realVolume = b.realVolume

/-- Keep the first occurrence of each row value (drop_duplicates). -/
def dropDupRows : List Bar → List Bar :=
  go []
where
  go (seen : List Bar) : List Bar → List Bar
    | [] => []
    | b :: rest =>
      if seen.any (fun s => barValuesEq s b) then go seen rest
      else b :: go (b :: seen) rest

/-- Stable sort of bars by bar start time (sort_index). -/
def sortByTime (l : List Bar) : List Bar :=
  List.insertionSort (fun a b => a.barStartTime ≤ b.barStartTime) l

/-- The retained-window update of the strategy loop (source lines 954-964):
drop bars not strictly newer than the last processed bar time (the time of
the last bar of the window), append, drop duplicate rows, sort by time and
trim to the newest bars_needed bars.  When nothing new remains the window
is left untouched. -/
def updateWindow (window newBars : List Bar) (barsNeeded : ℕ) : List Bar :=
  let lastT := window.getLast?.map Bar.barStartTime
  let fresh := newBars.filter fun b =>
    match lastT with
    | some t => decide (t < b.barStartTime)
    | none => true
  if fresh.isEmpty then window
  else
    let merged := sortByTime (dropDupRows (window ++ fresh))
    if merged.length > barsNeeded then merged.drop (merged.length - barsNeeded)
    else merged

/-- Extended value mirroring the IEEE-754 doubles flowing through the RSI
pipeline: a finite rational, a signed infinity, or NaN. -/
inductive PF where
  | num (q : ℚ)
  | inf
  | ninf
  | nan
deriving DecidableEq

/-- Float addition on extended values. -/
def PF.add : PF → PF → PF
  | .num a, .num b => .num (a + b)
  | .num _, .inf => .inf
  | .inf, .num _ => .inf
  | .num _, .ninf => .ninf
  | .ninf, .num _ => .ninf
  | .inf, .inf => .inf
  | .ninf, .ninf => .ninf
  | .inf, .ninf => .nan
  | .ninf, .inf => .nan
  | .nan, _ => .nan
  | _, .nan => .nan

/-- Float subtraction on extended values. -/
def PF.sub : PF → PF → PF
  | .num a, .num b => .num (a - b)
  | .num _, .inf => .ninf
  | .inf, .num _ => .inf
  | .num _, .ninf => .inf
  | .ninf, .num _ => .ninf
  | .inf, .ninf => .inf
  | .ninf, .inf => .ninf
  | .inf, .inf => .nan
  | .ninf, .ninf => .nan
  | .nan, _ => .nan
  | _, .nan => .nan

/-- Float division on extended values; a nonzero finite value divided by
zero gives a signed infinity and 0/0 gives NaN, as in numpy/pandas. -/
def PF.div : PF → PF → PF
  | .num a, .num b =>
    if b = 0 then (if a > 0 then .inf else if a < 0 then .ninf else .nan)
    else .num (a / b)
  | .num _, .inf => .num 0
  | .num _, .ninf => .num 0
  | .inf, .num b => if b ≥ 0 then .inf else .ninf
  | .ninf, .num b => if b ≥ 0 then .ninf else .inf
  | .inf, .inf => .nan
  | .inf, .ninf => .nan
  | .ninf, .inf => .nan
  | .ninf, .ninf => .nan
  | .nan, _ => .nan
  | _, .nan => .nan

/-- Consecutive close-to-close differences (Series.diff without the leading
NaN, which the gain/loss construction replaces by 0 anyway). -/
def diffs : List ℚ → List ℚ
  | [] => []
  | [_] => []
  | a :: b :: rest => (b - a) :: diffs (b :: rest)

/-- Final value of Wilder exponential smoothing
(Series.ewm(com=period-1, adjust=False).mean()), seeded with the first
element: each step moves by (x - y)/period. -/
def wilderLast (period : ℕ) : List ℚ → ℚ
  | [] => 0
  | x :: xs => xs.foldl (fun y v => y + (v - y) / (period : ℚ)) x

/-- The per-bar gains the RSI smooths: the leading 0 embeds
delta.where(delta greater 0, 0).fillna(0) at the first row. -/
def gainsOf (closes : List ℚ) : List ℚ :=
  0 :: (diffs closes).map fun d => if d > 0 then d else 0

/-- The per-bar losses the RSI smooths. -/
def lossesOf (closes : List ℚ) : List ℚ :=
  0 :: (diffs closes).map fun d => if d < 0 then -d else 0

/-- Wilder average gain at the last bar. -/
def avgGainLast (period : ℕ) (closes : List ℚ) : ℚ :=
  wilderLast period (gainsOf closes)

/-- Wilder average loss at the last bar. -/
def avgLossLast (period : ℕ) (closes : List ℚ) : ℚ :=
  wilderLast period (lossesOf closes)

/-- Series.fillna(0) at one value: NaN becomes 0. -/
def PF.fillnaZero : PF → PF
  | .num q => .num q
  | .inf => .inf
  | .ninf => .ninf
  | .nan => .num 0

/-- Series.clip(0, 100) at one finite value (the pipeline has replaced the
infinities and filled NaN before clipping, so those cases are inert). -/
def PF.clip0100 : PF → PF
  | .num q => .num (min 100 (max 0 q))
  | .inf => .inf
  | .ninf => .ninf
  | .nan => .nan

/-- The finite payload of an extended value, if any. -/
def PF.toOpt : PF → Option ℚ
  | .num q => some q
  | .inf => none
  | .ninf => none
  | .nan => none

/-- The RSI pipeline of calculate_rsi at the last bar, on extended values:
rs = avg_gain/avg_loss; rsi = 100 - 100/(1 + rs); then the source replaces
plus infinity by 100 and minus infinity by 0, fills NaN with 0 and clips to
the interval from 0 to 100. -/
def rsiLastPF (period : ℕ) (closes : List ℚ) : PF :=
  let rs := PF.div (.num (avgGainLast period closes))
    (.num (avgLossLast period closes))
  let r1 := PF.sub (.num 100) (PF.div (.num 100) (PF.add (.num 1) rs))
  let r2 := if r1 = PF.inf then PF.num 100
    else if r1 = PF.ninf then PF.num 0 else r1
  PF.clip0100 (PF.fillnaZero r2)

/-- calculate_rsi evaluated at the last bar: None when fewer than
period + 1 bars are available (the source early-returns None), otherwise
the clipped pipeline value, which is always finite by then. -/
def calculateRsiLast (period : ℕ) (closes : List ℚ) : Option ℚ :=
  if closes.length < period + 1 then none
  else PF.toOpt (rsiLastPF period closes)

/-- Reversal watch state (the sl_hit_* attribute group of the bot). -/
structure ReversalWatch where
  active : Bool
  direction : Option Side
  count : ℕ
  maLevel : Option ℚ
deriving DecidableEq

/-- One iteration of the strategy loop as the reversal watch sees it: the
latest custom bar close, whether that bar is new since the previous
iteration (the source never consults this), and the current trend MA. -/
structure LoopCycle where
  barClose : ℚ
  isNewBar : Bool
  m5Ma : Option ℚ
deriving DecidableEq

/-- The inactive reversal watch state after a reset. -/
def watchReset : ReversalWatch :=
  { active := false, direction := none, count := 0, maLevel := none }

/-- Reversal confirmation logic of one loop iteration (source lines
1102-1134), parameterised by the confirmation threshold
REVERSAL_CONFIRMATION_BARS.  Returns the next watch state and whether this
iteration confirmed the reversal (which zeroes the post-loss cooldown
timestamp).  The source runs this on every polling iteration with the
current bar close, whether or not that bar is new. -/
def reversalStep (n : ℕ) (w : ReversalWatch) (c : LoopCycle) :
    ReversalWatch × Bool :=
  match c.m5Ma with
  | none => (w, false)
  | some m =>
    if w.active then
      let w1 :=
        match w.direction with
        | some .buy =>
          if c.barClose < m then { w with count := w.count + 1 }
          else { w with active := false, count := 0 }
        | some .sell =>
          if c.barClose > m then { w with count := w.count + 1 }
          else { w with active := false, count := 0 }
        | none => w
      if w1.active ∧ w1.count ≥ n then (watchReset, true)
      else (w1, false)
    else (w, false)

/-- The per-iteration trace of the reversal watch over a list of loop
cycles: each entry is the state after that cycle plus its confirmation
flag. -/
def watchTrace (n : ℕ) (w : ReversalWatch) : List LoopCycle → List (ReversalWatch × Bool)
  | [] => []
  | c :: cs =>
    let r := reversalStep n w c
    r :: watchTrace n r.1 cs

/-- Trend MA slope classification (m5_ma_slope strings). -/
inductive Slope where
  | up
  | down
  | flat
  | unknown
deriving DecidableEq

/-- Everything the four entry patterns read on one iteration: trend MA and
slope, live bid/ask, the latest indicator values, the previous-bar
stochastic values, previous and current raw bar fields, the open-position
count, the per-side seconds since the last entry and the current ATR. -/
structure SignalCtx where
  m5Ma : Option ℚ
  slope : Slope
  liveBid : ℚ
  liveAsk : ℚ
  rsi : ℚ
  k : ℚ
  d : ℚ
  prevK : ℚ
  prevD : ℚ
  prevOpen : ℚ
  prevHigh : ℚ
  prevLow : ℚ
  prevClose : ℚ
  curOpen : ℚ
  curClose : ℚ
  numOpen : ℕ
  sinceBuy : ℚ
  sinceSell : ℚ
  atr : Option ℚ

/-- Live mid price used against the trend MA (source: live_mid_price). -/
def liveMid (s : SignalCtx) : ℚ := (s.liveBid + s.liveAsk) / 2

/-- Dip-buy-in-uptrend entry condition (source lines 1166-1176). -/
def dipBuySignal (cfg : Config) (s : SignalCtx) : Bool :=
  match s.m5Ma with
  | none => false
  | some ma =>
    s.slope = Slope.up ∧ liveMid s > ma ∧ s.rsi < cfg.rsiOversold ∧
      s.k > s.d ∧ s.prevK ≤ s.prevD ∧ s.k < cfg.stochasticOversold + 5 ∧
      s.prevLow ≤ ma ∧ s.prevClose > ma ∧
      s.numOpen < cfg.numConcurrentTrades ∧
      s.sinceBuy > cfg.tradeEntryCooldownSeconds

/-- Trend-continuation buy entry condition (source lines 1195-1206). -/
def contBuySignal (cfg : Config) (s : SignalCtx) : Bool :=
  match s.m5Ma with
  | none => false
  | some ma =>
    s.slope = Slope.up ∧ liveMid s > ma ∧ s.rsi < 60 ∧ s.rsi > 40 ∧
      s.k > s.d ∧ s.prevK ≤ s.prevD ∧
      s.prevClose < s.prevOpen ∧ s.curClose > s.curOpen ∧
      s.curClose > s.prevHigh ∧
      s.numOpen < cfg.numConcurrentTrades ∧
      s.sinceBuy > cfg.tradeEntryCooldownSeconds

/-- Rally-sell-in-downtrend entry condition (source lines 1230-1240). -/
def rallySellSignal (cfg : Config) (s : SignalCtx) : Bool :=
  match s.m5Ma with
  | none => false
  | some ma =>
    s.slope = Slope.down ∧ liveMid s < ma ∧ s.rsi > cfg.rsiOverbought ∧
      s.k < s.d ∧ s.prevK ≥ s.prevD ∧ s.k > cfg.stochasticOverbought - 5 ∧
      s.prevHigh ≥ ma ∧ s.prevClose < ma ∧
      s.numOpen < cfg.numConcurrentTrades ∧
      s.sinceSell > cfg.tradeEntryCooldownSeconds

/-- Trend-continuation sell entry condition (source lines 1257-1268). -/
def contSellSignal (cfg : Config) (s : SignalCtx) : Bool :=
  match s.m5Ma with
  | none => false
  | some ma =>
    s.slope = Slope.down ∧ liveMid s < ma ∧ s.rsi < 60 ∧ s.rsi > 40 ∧
      s.k < s.d ∧ s.prevK ≥ s.prevD ∧
      s.prevClose > s.prevOpen ∧ s.curClose < s.curOpen ∧
      s.curClose < s.prevLow ∧
      s.numOpen < cfg.numConcurrentTrades ∧
      s.sinceSell > cfg.tradeEntryCooldownSeconds

/-- Dynamic take-profit distance in points for new entries (source lines
1148-1156): the fixed TP_POINTS fallback when ATR is unavailable, otherwise
ATR times the multiplier clamped between the configured minimum and
maximum. -/
def dynamicTpPoints (cfg : Config) (atr : Option ℚ) : ℚ :=
  match atr with
  | none => cfg.tpPoints
  | some a =>
    max cfg.minDynamicTpPoints
      (min cfg.maxDynamicTpPoints (a * cfg.dynamicTpAtrMultiplier))

/-- An entry order as assembled by the strategy loop before send_order. -/
structure Order where
  side : Side
  price : ℚ
  volume : ℚ
  sl : ℚ
  tp : ℚ
deriving DecidableEq

/-- The entry decision of one loop iteration after the spread/cooldown
gates: the four patterns are tried in the elif order of the source, the
first match sends an order priced at ask (buy) or bid (sell) with the
fixed stop distance and the dynamic take profit, unless the dynamic lot
size is nonpositive (the source then skips the iteration). -/
def entryDecision (cfg : Config) (meta : SymbolMeta) (s : SignalCtx)
    (lot : ℚ) : Option Order :=
  let tpPts := dynamicTpPoints cfg s.atr
  if dipBuySignal cfg s then
    if lot ≤ 0 then none
    else some { side := .buy, price := s.liveAsk, volume := lot,
                sl := s.liveAsk - cfg.slPoints * meta.point,
                tp := s.liveAsk + tpPts * meta.point }
  else if contBuySignal cfg s then
    if lot ≤ 0 then none
    else some { side := .buy, price := s.liveAsk, volume := lot,
                sl := s.liveAsk - cfg.slPoints * meta.point,
                tp := s.liveAsk + tpPts * meta.point }
  else if rallySellSignal cfg s then
    if lot ≤ 0 then none
    else some { side := .sell, price := s.liveBid, volume := lot,
                sl := s.liveBid + cfg.slPoints * meta.point,
                tp := s.liveBid - tpPts * meta.point }
  else if contSellSignal cfg s then
    if lot ≤ 0 then none
    else some { side := .sell, price := s.liveBid, volume := lot,
                sl := s.liveBid + cfg.slPoints * meta.point,
                tp := s.liveBid - tpPts * meta.point }
  else none

/-- The optional values a goldtick5_config.json file may carry for the keys
load_config_from_file reads; None stands for a missing key. -/
structure ConfigFile where
  maxSpreadPoints : Option ℚ := none
  rsiOversold : Option ℚ := none
  rsiOverbought : Option ℚ := none
  riskPercentPerTrade : Option ℚ := none
  slPoints : Option ℚ := none
  tpPoints : Option ℚ := none
  maxHoldTimeSeconds : Option ℚ := none
  numConcurrentTrades : Option ℕ := none
  breakEvenProfitPoints : Option ℚ := none
  atrMultiplier : Option ℚ := none
  cooldownAfterTradeSeconds : Option ℚ := none

/-- load_config_from_file (source lines 137-162): a missing or unreadable
file leaves the configuration unchanged; otherwise every present key
replaces the current value verbatim via dict.get with the current value as
default.  No key is range-checked. -/
def loadConfigFromFile (cur : Config) (file : Option ConfigFile) : Config :=
  match file with
  | none => cur
  | some f =>
    { cur with
      maxSpreadPoints := f.maxSpreadPoints.getD cur.maxSpreadPoints
      rsiOversold := f.rsiOversold.getD cur.rsiOversold
      rsiOverbought := f.rsiOverbought.getD cur.rsiOverbought
      riskPercentPerTrade := f.riskPercentPerTrade.getD cur.riskPercentPerTrade
      slPoints := f.slPoints.getD cur.slPoints
      tpPoints := f.tpPoints.getD cur.tpPoints
      maxHoldTimeSeconds := f.maxHoldTimeSeconds.getD cur.maxHoldTimeSeconds
      numConcurrentTrades := f.numConcurrentTrades.getD cur.numConcurrentTrades
      breakEvenProfitPoints := f.breakEvenProfitPoints.getD cur.breakEvenProfitPoints
      atrMultiplier := f.atrMultiplier.getD cur.atrMultiplier
      cooldownAfterTradeSeconds := f.cooldownAfterTradeSeconds.getD cur.cooldownAfterTradeSeconds }

/-- Standard gold venue metadata: point 0.01, minimum volume and volume
step 0.01 lots, no broker stop level. -/
def stdMeta : SymbolMeta :=
  { point := 1/100, volumeMin := 1/100, volumeMax := 100,
    volumeStep := 1/100, tradeStopLevelPoints := 0 }

/-- Profit and adverse excursion are exact negatives of each other,
for both sides. -/
theorem profit_eq_neg_adverse (meta : SymbolMeta) (mkt : MarketCtx)
    (pos : Position) :
    profitPoints meta mkt pos = - adversePoints meta mkt pos := by
  unfold profitPoints adversePoints
  cases pos.side <;> rw [← neg_div, neg_sub]

/-- A long position in a confirmed adverse move: entry 2000.00, original
stop 1998.50 (150 points), bid 1998.52 (148 points under water), latest
bar close 1998.50, no S/R data, ATR unavailable. -/
def posC1 : Position :=
  { side := .buy, entryPrice := 2000, currentSl := 19985/10,
    currentTp := 2005, volume := 1, heldSeconds := some 10,
    partTaken := false }

/-- Market context for the aggressive-loss-limiter scenario of posC1. -/
def mktC1 : MarketCtx :=
  { bid := 199852/100, ask := 199887/100, atr := none,
    prevHighInPeriod := none, prevLowInPeriod := none,
    lastBarClose := some (19985/10) }

/-- C1: across an open position lifetime every stop modification applied by
the position manager moves the stop only in the risk-reducing direction,
and the first aggressive-loss-limiter placement never widens risk beyond
the original stop.  The code contradicts this: in the posC1 scenario the
aggressive loss limiter is the only rule that fires and it moves the stop
of a long position from the original 1998.50 DOWN to 1998.47, widening the
maximum loss beyond the original stop, because the source gates the move on
the candidate being LOWER than the current stop for a long position
(new_aggressive_sl_candidate < current_sl) instead of higher. -/
theorem c1_aggressive_limiter_widens_stop :
    managePosition defaultConfig stdMeta mktC1 posC1 =
        [Action.modifySl (199847/100)] ∧
      (199847/100 : ℚ) < posC1.currentSl ∧
      posC1.currentSl =
        posC1.entryPrice - defaultConfig.slPoints * stdMeta.point := by
  refine ⟨?_, by norm_num [posC1], by norm_num [posC1, defaultConfig, stdMeta]⟩
  norm_num [managePosition, partActs, stageTwoActs, trailingActs,
    timeExitTriggered, profitPoints, adversePoints, posC1, mktC1, stdMeta,
    defaultConfig]

/-- Long position held past the maximum hold time whose adverse excursion
sits exactly at the kill-switch ceiling of 200 points. -/
def posC2 : Position :=
  { side := .buy, entryPrice := 2000, currentSl := 19985/10,
    currentTp := 2005, volume := 1, heldSeconds := some 121,
    partTaken := false }

/-- Market context putting posC2 exactly 200 points under water. -/
def mktC2 : MarketCtx :=
  { bid := 1998, ask := 199835/100, atr := none,
    prevHighInPeriod := none, prevLowInPeriod := none,
    lastBarClose := some 1998 }

/-- Counterexample to C2: with the adverse excursion exactly at the
kill-switch ceiling but the position also eligible for the time-based exit,
the time-based exit is evaluated first and performs the closure, so the
kill switch does not suppress all other rule evaluation for the cycle. -/
theorem c2_kill_switch_not_exclusive_cex :
    adversePoints stdMeta mktC2 posC2 =
        defaultConfig.maxAdverseExcursionClosePoints ∧
      managePosition defaultConfig stdMeta mktC2 posC2 =
        [Action.close .timeExit] ∧
      Action.close .maxAdverse ∉ managePosition defaultConfig stdMeta mktC2 posC2 := by
  have h : managePosition defaultConfig stdMeta mktC2 posC2 =
      [Action.close .timeExit] := by
    norm_num [managePosition, partActs, stageTwoActs, trailingActs,
      timeExitTriggered, profitPoints, adversePoints, posC2, mktC2,
      stdMeta, defaultConfig]
  refine ⟨by norm_num [adversePoints, posC2, mktC2, stdMeta, defaultConfig],
    h, ?_⟩
  rw [h]
  simp

/-- C2 amended: when the adverse excursion reaches the ceiling the position
is always fully closed with no stop modification and no partial close; the
closure is attributed to the kill switch unless the time-based exit (which
the source checks first) also triggers, in which case that rule performs
the (still full) closure.  Partial profit can never co-trigger because its
profit condition is incompatible with the adverse excursion. -/
theorem c2_kill_switch_behavior (meta : SymbolMeta) (mkt : MarketCtx)
    (pos : Position)
    (h : adversePoints meta mkt pos ≥ defaultConfig.maxAdverseExcursionClosePoints) :
    managePosition defaultConfig meta mkt pos =
      if timeExitTriggered defaultConfig meta mkt pos then
        [Action.close .timeExit]
      else [Action.close .maxAdverse] := by
  have hmax : defaultConfig.maxAdverseExcursionClosePoints = 200 := rfl
  have htrig : defaultConfig.partProfitTriggerPoints = 150 := rfl
  have hprof : profitPoints meta mkt pos ≤ -200 := by
    rw [profit_eq_neg_adverse]
    rw [hmax] at h
    linarith
  have hpart : partActs defaultConfig meta mkt pos = [] := by
    unfold partActs
    rw [if_neg]
    rintro ⟨-, h2, -⟩
    rw [htrig] at h2
    linarith
  unfold managePosition
  rw [hpart]
  by_cases ht : timeExitTriggered defaultConfig meta mkt pos
  · rw [if_pos ht, if_pos ht]
    rfl
  · rw [if_neg ht, if_neg ht, if_pos h]
    rfl

/-- Position for the C2 witness: same adverse excursion, held only 10
seconds, so the kill switch itself closes it. -/
def posC2w : Position :=
  { side := .buy, entryPrice := 2000, currentSl := 19985/10,
    currentTp := 2005, volume := 1, heldSeconds := some 10,
    partTaken := false }

/-- Witness for c2_kill_switch_behavior at a concrete input. -/
theorem c2_kill_switch_behavior_witness :
    adversePoints stdMeta mktC2 posC2w ≥
        defaultConfig.maxAdverseExcursionClosePoints ∧
      managePosition defaultConfig stdMeta mktC2 posC2w =
        [Action.close .maxAdverse] :=
  have ha : adversePoints stdMeta mktC2 posC2w ≥
      defaultConfig.maxAdverseExcursionClosePoints := by
    norm_num [adversePoints, posC2w, mktC2, stdMeta, defaultConfig]
  ⟨ha, (c2_kill_switch_behavior stdMeta mktC2 posC2w ha).trans (by
    norm_num [timeExitTriggered, profitPoints, posC2w, mktC2, stdMeta,
      defaultConfig])⟩

/-- A venue whose minimum volume (0.10 lots) is larger than its volume
step (0.01 lots), as offered by several gold brokers. -/
def metaC4 : SymbolMeta :=
  { point := 1/100, volumeMin := 1/10, volumeMax := 100,
    volumeStep := 1/100, tradeStopLevelPoints := 0 }

/-- A 0.12 lot long position above the venue minimum with no partial taken
yet. -/
def posC4 : Position :=
  { side := .buy, entryPrice := 2000, currentSl := 19985/10,
    currentTp := 2005, volume := 12/100, heldSeconds := some 10,
    partTaken := false }

/-- Market context putting posC4 exactly at the partial-profit trigger of
150 points. -/
def mktC4 : MarketCtx :=
  { bid := 20015/10, ask := 200185/100, atr := none,
    prevHighInPeriod := none, prevLowInPeriod := none,
    lastBarClose := some 2001 }

/-- Counterexample to C4: at the exact trigger with volume above the venue
minimum, the rounded-down half volume is 0.06 lots, yet the manager closes
nothing at all: the source first clamps the close amount up to the venue
minimum 0.10 and then skips the partial close because the remaining 0.02
lots would be invalid.  Only the break-even stop move is emitted. -/
theorem c4_partial_close_skipped_cex :
    profitPoints metaC4 mktC4 posC4 = defaultConfig.partProfitTriggerPoints ∧
      posC4.volume > metaC4.volumeMin ∧
      posC4.partTaken = false ∧
      (⌊posC4.volume * defaultConfig.partProfitPercentage / metaC4.volumeStep⌋ : ℚ) *
          metaC4.volumeStep = 6/100 ∧
      managePosition defaultConfig metaC4 mktC4 posC4 =
        [Action.modifySl (100011/50)] ∧
      ∀ v, Action.partClose v ∉ managePosition defaultConfig metaC4 mktC4 posC4 := by
  have h : managePosition defaultConfig metaC4 mktC4 posC4 =
      [Action.modifySl (100011/50)] := by
    norm_num [managePosition, partActs, stageTwoActs, trailingActs,
      timeExitTriggered, profitPoints, adversePoints, posC4, mktC4,
      metaC4, defaultConfig]
  refine ⟨by norm_num [profitPoints, posC4, mktC4, metaC4, defaultConfig],
    by norm_num [posC4, metaC4], rfl,
    by norm_num [posC4, metaC4, defaultConfig], h, ?_⟩
  intro v
  rw [h]
  simp

/-- C4 amended: at the trigger the manager closes
max(floor-to-step(volume x fraction), venue minimum volume) - not the plain
rounded-down fraction - and only when the remainder is at least the venue
minimum or negligibly small (below half a step); otherwise no partial close
happens at all.  When the close goes through, the stop is moved to entry
plus (long) or minus (short) the break-even buffer only if better than the
pre-existing stop; the break-even rule then re-issues the same stop value
in the same cycle (an idempotent duplicate). -/
theorem c4_partial_profit_behavior (meta : SymbolMeta) (mkt : MarketCtx)
    (pos : Position) (v rem : ℚ)
    (hTaken : pos.partTaken = false)
    (hprof : profitPoints meta mkt pos = defaultConfig.partProfitTriggerPoints)
    (hvol : pos.volume > meta.volumeMin)
    (hatr : mkt.atr = none)
    (hv : v = max ((⌊pos.volume * defaultConfig.partProfitPercentage / meta.volumeStep⌋ : ℚ) *
      meta.volumeStep) meta.volumeMin)
    (hrem : rem = pos.volume - v) :
    (pos.side = .buy →
      managePosition defaultConfig meta mkt pos =
        (if rem ≥ meta.volumeMin ∨ (rem < meta.volumeMin ∧ rem < meta.volumeStep / 2) then
          Action.partClose v ::
            (if pos.entryPrice + defaultConfig.breakEvenBufferPoints * meta.point > pos.currentSl then
              [Action.modifySl (pos.entryPrice + defaultConfig.breakEvenBufferPoints * meta.point)]
            else [])
        else []) ++
        (if pos.entryPrice + defaultConfig.breakEvenBufferPoints * meta.point > pos.currentSl then
          [Action.modifySl (pos.entryPrice + defaultConfig.breakEvenBufferPoints * meta.point)]
        else [])) ∧
    (pos.side = .sell →
      managePosition defaultConfig meta mkt pos =
        (if rem ≥ meta.volumeMin ∨ (rem < meta.volumeMin ∧ rem < meta.volumeStep / 2) then
          Action.partClose v ::
            (if pos.entryPrice - defaultConfig.breakEvenBufferPoints * meta.point < pos.currentSl then
              [Action.modifySl (pos.entryPrice - defaultConfig.breakEvenBufferPoints * meta.point)]
            else [])
        else []) ++
        (if pos.entryPrice - defaultConfig.breakEvenBufferPoints * meta.point < pos.currentSl then
          [Action.modifySl (pos.entryPrice - defaultConfig.breakEvenBufferPoints * meta.point)]
        else [])) := by
  subst hv hrem
  have hprof150 : profitPoints meta mkt pos = 150 := hprof
  have htime : ¬ timeExitTriggered defaultConfig meta mkt pos := by
    intro ht
    unfold timeExitTriggered at ht
    cases hs : pos.heldSeconds with
    | none => rw [hs] at ht; exact ht
    | some h0 =>
      rw [hs] at ht
      rw [hprof150] at ht
      exact absurd ht.2 (by norm_num)
  have hadv : adversePoints meta mkt pos = -150 := by
    have h1 := profit_eq_neg_adverse meta mkt pos
    rw [hprof150] at h1
    linarith
  have hmae : ¬ adversePoints meta mkt pos ≥
      defaultConfig.maxAdverseExcursionClosePoints := by
    rw [hadv]
    norm_num [defaultConfig]
  have hcond : pos.partTaken = false ∧
      profitPoints meta mkt pos ≥ defaultConfig.partProfitTriggerPoints ∧
      pos.volume > meta.volumeMin := ⟨hTaken, le_of_eq hprof.symm, hvol⟩
  have htrail : trailingActs defaultConfig meta mkt pos = [] := by
    unfold trailingActs
    rw [hatr]
  have hnotneg : ¬ (profitPoints meta mkt pos < 0 ∧
      adversePoints meta mkt pos ≥
        defaultConfig.slPoints * defaultConfig.aggressiveSlPercentTrigger +
          defaultConfig.aggressiveSlFixedBufferForTrigger) := by
    rintro ⟨h1, -⟩
    rw [hprof150] at h1
    norm_num at h1
  have hbe : profitPoints meta mkt pos ≥ defaultConfig.breakEvenProfitPoints := by
    rw [hprof150]
    norm_num [defaultConfig]
  constructor <;> intro hside
  · have hpart : partActs defaultConfig meta mkt pos =
        (if pos.volume - max ((⌊pos.volume * defaultConfig.partProfitPercentage / meta.volumeStep⌋ : ℚ) *
              meta.volumeStep) meta.volumeMin ≥ meta.volumeMin ∨
            (pos.volume - max ((⌊pos.volume * defaultConfig.partProfitPercentage / meta.volumeStep⌋ : ℚ) *
              meta.volumeStep) meta.volumeMin < meta.volumeMin ∧
             pos.volume - max ((⌊pos.volume * defaultConfig.partProfitPercentage / meta.volumeStep⌋ : ℚ) *
              meta.volumeStep) meta.volumeMin < meta.volumeStep / 2) then
          Action.partClose (max ((⌊pos.volume * defaultConfig.partProfitPercentage / meta.volumeStep⌋ : ℚ) *
              meta.volumeStep) meta.volumeMin) ::
            (if pos.entryPrice + defaultConfig.breakEvenBufferPoints * meta.point > pos.currentSl then
              [Action.modifySl (pos.entryPrice + defaultConfig.breakEvenBufferPoints * meta.point)]
            else [])
        else []) := by
      unfold partActs
      rw [if_pos hcond]
      simp only [hside]
    have hstage : stageTwoActs defaultConfig meta mkt pos =
        (if pos.entryPrice + defaultConfig.breakEvenBufferPoints * meta.point > pos.currentSl then
          [Action.modifySl (pos.entryPrice + defaultConfig.breakEvenBufferPoints * meta.point)]
        else []) := by
      unfold stageTwoActs
      rw [if_neg hnotneg, if_pos hbe]
      simp only [hside]
    unfold managePosition
    rw [if_neg htime, if_neg hmae, hpart, hstage, htrail, List.append_nil]
  · have hpart : partActs defaultConfig meta mkt pos =
        (if pos.volume - max ((⌊pos.volume * defaultConfig.partProfitPercentage / meta.volumeStep⌋ : ℚ) *
              meta.volumeStep) meta.volumeMin ≥ meta.volumeMin ∨
            (pos.volume - max ((⌊pos.volume * defaultConfig.partProfitPercentage / meta.volumeStep⌋ : ℚ) *
              meta.volumeStep) meta.volumeMin < meta.volumeMin ∧
             pos.volume - max ((⌊pos.volume * defaultConfig.partProfitPercentage / meta.volumeStep⌋ : ℚ) *
              meta.volumeStep) meta.volumeMin < meta.volumeStep / 2) then
          Action.partClose (max ((⌊pos.volume * defaultConfig.partProfitPercentage / meta.volumeStep⌋ : ℚ) *
              meta.volumeStep) meta.volumeMin) ::
            (if pos.entryPrice - defaultConfig.breakEvenBufferPoints * meta.point < pos.currentSl then
              [Action.modifySl (pos.entryPrice - defaultConfig.breakEvenBufferPoints * meta.point)]
            else [])
        else []) := by
      unfold partActs
      rw [if_pos hcond]
      simp only [hside]
    have hstage : stageTwoActs defaultConfig meta mkt pos =
        (if pos.entryPrice - defaultConfig.breakEvenBufferPoints * meta.point < pos.currentSl then
          [Action.modifySl (pos.entryPrice - defaultConfig.breakEvenBufferPoints * meta.point)]
        else []) := by
      unfold stageTwoActs
      rw [if_neg hnotneg, if_pos hbe]
      simp only [hside]
    unfold managePosition
    rw [if_neg htime, if_neg hmae, hpart, hstage, htrail, List.append_nil]

/-- A 0.12 lot long position on the standard venue (minimum = step = 0.01)
for the C4 witness. -/
def posC4w : Position :=
  { side := .buy, entryPrice := 2000, currentSl := 19985/10,
    currentTp := 2005, volume := 12/100, heldSeconds := some 10,
    partTaken := false }

/-- Witness for c4_partial_profit_behavior: on the standard venue the
partial close of exactly 0.06 lots goes through, followed by the stop move
to 2000.22 and its break-even duplicate. -/
theorem c4_partial_profit_behavior_witness :
    managePosition defaultConfig stdMeta mktC4 posC4w =
      [Action.partClose (6/100), Action.modifySl (100011/50),
        Action.modifySl (100011/50)] := by
  have h := (c4_partial_profit_behavior stdMeta mktC4 posC4w
      (6/100) (6/100) rfl
      (by norm_num [profitPoints, posC4w, mktC4, stdMeta, defaultConfig])
      (by norm_num [posC4w, stdMeta])
      rfl
      (by norm_num [posC4w, stdMeta, defaultConfig])
      (by norm_num [posC4w])).1 rfl
  rw [h]
  norm_num [posC4w, stdMeta, defaultConfig]

/-- C9: for a position whose profit in points strictly exceeds the
break-even threshold and with ATR available, the trailing rule proposes a
stop at the trailing distance of ATR times ATR_MULTIPLIER points from the
current price (bid minus the distance for a long, ask plus it for a short,
the point distance converted by the point value as everywhere in the bot)
and applies it exactly when the proposed stop is both tighter than the
current stop and past the break-even level.  The break-even rule runs in
the same cycle first; its action is listed before the trailing one.
Partial profit is assumed already taken so only the stop rules act. -/
theorem c9_atr_trailing (meta : SymbolMeta) (mkt : MarketCtx)
    (pos : Position) (a : ℚ)
    (hatr : mkt.atr = some a)
    (hTaken : pos.partTaken = true)
    (hprof : profitPoints meta mkt pos > defaultConfig.breakEvenProfitPoints) :
    (pos.side = .buy →
      managePosition defaultConfig meta mkt pos =
        (if pos.entryPrice + defaultConfig.breakEvenBufferPoints * meta.point > pos.currentSl then
          [Action.modifySl (pos.entryPrice + defaultConfig.breakEvenBufferPoints * meta.point)]
        else []) ++
        (if mkt.bid - a * defaultConfig.atrMultiplier * meta.point > pos.currentSl ∧
            mkt.bid - a * defaultConfig.atrMultiplier * meta.point >
              pos.entryPrice + defaultConfig.breakEvenBufferPoints * meta.point then
          [Action.modifySl (mkt.bid - a * defaultConfig.atrMultiplier * meta.point)]
        else [])) ∧
    (pos.side = .sell →
      managePosition defaultConfig meta mkt pos =
        (if pos.entryPrice - defaultConfig.breakEvenBufferPoints * meta.point < pos.currentSl then
          [Action.modifySl (pos.entryPrice - defaultConfig.breakEvenBufferPoints * meta.point)]
        else []) ++
        (if mkt.ask + a * defaultConfig.atrMultiplier * meta.point < pos.currentSl ∧
            mkt.ask + a * defaultConfig.atrMultiplier * meta.point <
              pos.entryPrice - defaultConfig.breakEvenBufferPoints * meta.point then
          [Action.modifySl (mkt.ask + a * defaultConfig.atrMultiplier * meta.point)]
        else [])) := by
  have hprof75 : profitPoints meta mkt pos > 75 := hprof
  have hpart : partActs defaultConfig meta mkt pos = [] := by
    unfold partActs
    rw [if_neg]
    rintro ⟨h1, -⟩
    rw [hTaken] at h1
    exact absurd h1 (by simp)
  have htime : ¬ timeExitTriggered defaultConfig meta mkt pos := by
    intro ht
    unfold timeExitTriggered at ht
    cases hs : pos.heldSeconds with
    | none => rw [hs] at ht; exact ht
    | some h0 =>
      rw [hs] at ht
      have := ht.2
      linarith
  have hmae : ¬ adversePoints meta mkt pos ≥
      defaultConfig.maxAdverseExcursionClosePoints := by
    have h1 := profit_eq_neg_adverse meta mkt pos
    have hmax : defaultConfig.maxAdverseExcursionClosePoints = 200 := rfl
    rw [hmax]
    intro hc
    linarith
  have hnotneg : ¬ (profitPoints meta mkt pos < 0 ∧
      adversePoints meta mkt pos ≥
        defaultConfig.slPoints * defaultConfig.aggressiveSlPercentTrigger +
          defaultConfig.aggressiveSlFixedBufferForTrigger) := by
    rintro ⟨h1, -⟩
    linarith
  have hbe : profitPoints meta mkt pos ≥ defaultConfig.breakEvenProfitPoints :=
    le_of_lt hprof
  constructor <;> intro hside
  · have hstage : stageTwoActs defaultConfig meta mkt pos =
        (if pos.entryPrice + defaultConfig.breakEvenBufferPoints * meta.point > pos.currentSl then
          [Action.modifySl (pos.entryPrice + defaultConfig.breakEvenBufferPoints * meta.point)]
        else []) := by
      unfold stageTwoActs
      rw [if_neg hnotneg, if_pos hbe]
      simp only [hside]
    have htrail : trailingActs defaultConfig meta mkt pos =
        (if mkt.bid - a * defaultConfig.atrMultiplier * meta.point > pos.currentSl ∧
            mkt.bid - a * defaultConfig.atrMultiplier * meta.point >
              pos.entryPrice + defaultConfig.breakEvenBufferPoints * meta.point then
          [Action.modifySl (mkt.bid - a * defaultConfig.atrMultiplier * meta.point)]
        else []) := by
      unfold trailingActs
      rw [hatr]
      simp only [hside]
      rw [if_pos hprof]
    unfold managePosition
    rw [if_neg htime, if_neg hmae, hpart, hstage, htrail, List.nil_append]
  · have hstage : stageTwoActs defaultConfig meta mkt pos =
        (if pos.entryPrice - defaultConfig.breakEvenBufferPoints * meta.point < pos.currentSl then
          [Action.modifySl (pos.entryPrice - defaultConfig.breakEvenBufferPoints * meta.point)]
        else []) := by
      unfold stageTwoActs
      rw [if_neg hnotneg, if_pos hbe]
      simp only [hside]
    have htrail : trailingActs defaultConfig meta mkt pos =
        (if mkt.ask + a * defaultConfig.atrMultiplier * meta.point < pos.currentSl ∧
            mkt.ask + a * defaultConfig.atrMultiplier * meta.point <
              pos.entryPrice - defaultConfig.breakEvenBufferPoints * meta.point then
          [Action.modifySl (mkt.ask + a * defaultConfig.atrMultiplier * meta.point)]
        else []) := by
      unfold trailingActs
      rw [hatr]
      simp only [hside]
      rw [if_pos hprof]
    unfold managePosition
    rw [if_neg htime, if_neg hmae, hpart, hstage, htrail, List.nil_append]

/-- A long position in profit with the partial already taken, for the C9
witness. -/
def posC9 : Position :=
  { side := .buy, entryPrice := 2000, currentSl := 1999,
    currentTp := 2005, volume := 1, heldSeconds := some 10,
    partTaken := true }

/-- Market context for the C9 witness: 100 points of profit and an ATR of
0.30. -/
def mktC9 : MarketCtx :=
  { bid := 2001, ask := 200135/100, atr := some (3/10),
    prevHighInPeriod := none, prevLowInPeriod := none,
    lastBarClose := some 2001 }

/-- Witness for c9_atr_trailing: break-even to 2000.22 then the ATR trail
to 2000.997, both strictly tightening. -/
theorem c9_atr_trailing_witness :
    managePosition defaultConfig stdMeta mktC9 posC9 =
      [Action.modifySl (100011/50), Action.modifySl (2000997/1000)] := by
  have h := (c9_atr_trailing stdMeta mktC9 posC9 (3/10) rfl rfl
      (by norm_num [profitPoints, posC9, mktC9, stdMeta, defaultConfig])).1 rfl
  rw [h]
  norm_num [posC9, mktC9, stdMeta, defaultConfig]

/-- Signal context in which the previous bar had the stochastic lines
exactly tied (prevK = prevD = 20) while every other dip-buy condition
holds. -/
def ctxC8 : SignalCtx :=
  { m5Ma := some 100, slope := .up, liveBid := 1009/10, liveAsk := 1011/10,
    rsi := 30, k := 21, d := 20, prevK := 20, prevD := 20,
    prevOpen := 100, prevHigh := 102, prevLow := 995/10,
    prevClose := 1005/10, curOpen := 100, curClose := 101,
    numOpen := 0, sinceBuy := 11, sinceSell := 11, atr := none }

/-- The order the strategy loop sends in the ctxC8 scenario. -/
def ordC8 : Order :=
  { side := .buy, price := 1011/10, volume := 1/10, sl := 996/10,
    tp := 1061/10 }

/-- Counterexample to C8: the dip-buy pattern fires and an order is sent
although the previous bar had %K equal to %D: the source tests
prev %K less-or-equal prev %D, so a tie on the previous bar counts as a
cross and no strict sign change is required. -/
theorem c8_prev_tie_cross_cex :
    ctxC8.prevK = ctxC8.prevD ∧
      dipBuySignal defaultConfig ctxC8 = true ∧
      entryDecision defaultConfig stdMeta ctxC8 (1/10) = some ordC8 := by
  refine ⟨rfl, ?_, ?_⟩
  · norm_num [dipBuySignal, liveMid, ctxC8, defaultConfig]
  · norm_num [entryDecision, dipBuySignal, contBuySignal, rallySellSignal,
      contSellSignal, liveMid, dynamicTpPoints, ctxC8, ordC8, stdMeta,
      defaultConfig]

/-- A dip-buy signal implies the stochastic conditions: current %K
strictly above %D, previous %K less-or-equal previous %D. -/
theorem dipBuySignal_cross (cfg : Config) (s : SignalCtx)
    (h : dipBuySignal cfg s = true) : s.k > s.d ∧ s.prevK ≤ s.prevD := by
  unfold dipBuySignal at h
  cases hma : s.m5Ma with
  | none => rw [hma] at h; simp at h
  | some ma =>
    rw [hma] at h
    simp only [decide_eq_true_eq] at h
    exact ⟨h.2.2.2.1, h.2.2.2.2.1⟩

/-- A trend-continuation buy signal implies the same stochastic
conditions. -/
theorem contBuySignal_cross (cfg : Config) (s : SignalCtx)
    (h : contBuySignal cfg s = true) : s.k > s.d ∧ s.prevK ≤ s.prevD := by
  unfold contBuySignal at h
  cases hma : s.m5Ma with
  | none => rw [hma] at h; simp at h
  | some ma =>
    rw [hma] at h
    simp only [decide_eq_true_eq] at h
    exact ⟨h.2.2.2.2.1, h.2.2.2.2.2.1⟩

/-- A rally-sell signal implies the mirrored stochastic conditions. -/
theorem rallySellSignal_cross (cfg : Config) (s : SignalCtx)
    (h : rallySellSignal cfg s = true) : s.k < s.d ∧ s.prevK ≥ s.prevD := by
  unfold rallySellSignal at h
  cases hma : s.m5Ma with
  | none => rw [hma] at h; simp at h
  | some ma =>
    rw [hma] at h
    simp only [decide_eq_true_eq] at h
    exact ⟨h.2.2.2.1, h.2.2.2.2.1⟩

/-- A trend-continuation sell signal implies the mirrored stochastic
conditions. -/
theorem contSellSignal_cross (cfg : Config) (s : SignalCtx)
    (h : contSellSignal cfg s = true) : s.k < s.d ∧ s.prevK ≥ s.prevD := by
  unfold contSellSignal at h
  cases hma : s.m5Ma with
  | none => rw [hma] at h; simp at h
  | some ma =>
    rw [hma] at h
    simp only [decide_eq_true_eq] at h
    exact ⟨h.2.2.2.2.1, h.2.2.2.2.2.1⟩

/-- C8 amended: every emitted entry order requires the current bar to have
%K strictly above %D (buy) or strictly below (sell) while the previous bar
had %K less-or-equal %D (buy side) or greater-or-equal (sell side): a
previous-bar tie counts towards a cross, so a strict sign change of the
difference is not required, only strict separation on the current bar. -/
theorem c8_crossover_condition (cfg : Config) (meta : SymbolMeta)
    (s : SignalCtx) (lot : ℚ) (o : Order)
    (h : entryDecision cfg meta s lot = some o) :
    (o.side = .buy → s.k > s.d ∧ s.prevK ≤ s.prevD) ∧
      (o.side = .sell → s.k < s.d ∧ s.prevK ≥ s.prevD) := by
  unfold entryDecision at h
  split_ifs at h
  all_goals simp only [Option.some.injEq] at h
  all_goals subst h
  · exact ⟨fun _ => dipBuySignal_cross cfg s (by assumption),
      fun hc => absurd hc (by simp)⟩
  · exact ⟨fun _ => contBuySignal_cross cfg s (by assumption),
      fun hc => absurd hc (by simp)⟩
  · exact ⟨fun hc => absurd hc (by simp),
      fun _ => rallySellSignal_cross cfg s (by assumption)⟩
  · exact ⟨fun hc => absurd hc (by simp),
      fun _ => contSellSignal_cross cfg s (by assumption)⟩

/-- Witness for c8_crossover_condition at the ctxC8 entry. -/
theorem c8_crossover_condition_witness :
    ctxC8.k > ctxC8.d ∧ ctxC8.prevK ≤ ctxC8.prevD :=
  (c8_crossover_condition defaultConfig stdMeta ctxC8 (1/10) ordC8 (by
    norm_num [entryDecision, dipBuySignal, contBuySignal, rallySellSignal,
      contSellSignal, liveMid, dynamicTpPoints, ctxC8, ordC8, stdMeta,
      defaultConfig])).1 (by norm_num [ordC8])

/-- C10: every entry order the strategy loop sends carries a take-profit
distance in points equal to TP_POINTS when ATR is unavailable and
otherwise ATR times DYNAMIC_TP_ATR_MULTIPLIER clamped to the configured
interval, and prices its take profit at the entry price plus (buy) or
minus (sell) that distance converted by the point value. -/
theorem c10_dynamic_tp (cfg : Config) (meta : SymbolMeta) (s : SignalCtx)
    (lot : ℚ) (o : Order)
    (h : entryDecision cfg meta s lot = some o) :
    (o.side = .buy → o.tp = o.price + dynamicTpPoints cfg s.atr * meta.point) ∧
      (o.side = .sell → o.tp = o.price - dynamicTpPoints cfg s.atr * meta.point) ∧
      dynamicTpPoints cfg s.atr =
        (match s.atr with
         | none => cfg.tpPoints
         | some a =>
           max cfg.minDynamicTpPoints
             (min cfg.maxDynamicTpPoints (a * cfg.dynamicTpAtrMultiplier))) := by
  refine ⟨?_, ?_, rfl⟩ <;>
  · unfold entryDecision at h
    split_ifs at h
    all_goals simp only [Option.some.injEq] at h
    all_goals subst h
    all_goals intro hside
    all_goals first
      | rfl
      | exact absurd hside (by simp)

/-- Signal context triggering the rally-sell pattern with ATR 30 points,
so the dynamic take profit is 60 points. -/
def ctxC10 : SignalCtx :=
  { m5Ma := some 100, slope := .down, liveBid := 99, liveAsk := 992/10,
    rsi := 70, k := 71, d := 75, prevK := 76, prevD := 74,
    prevOpen := 100, prevHigh := 1005/10, prevLow := 98,
    prevClose := 995/10, curOpen := 99, curClose := 99,
    numOpen := 0, sinceBuy := 11, sinceSell := 11, atr := some 30 }

/-- The order sent in the ctxC10 scenario: sell at 99.00 with stop 100.50
and take profit 98.40 (60 points below). -/
def ordC10 : Order :=
  { side := .sell, price := 99, volume := 1, sl := 201/2, tp := 492/5 }

/-- Witness for c10_dynamic_tp at the ctxC10 entry. -/
theorem c10_dynamic_tp_witness :
    entryDecision defaultConfig stdMeta ctxC10 1 = some ordC10 ∧
      ordC10.tp = ordC10.price -
        dynamicTpPoints defaultConfig ctxC10.atr * stdMeta.point :=
  have he : entryDecision defaultConfig stdMeta ctxC10 1 = some ordC10 := by
    norm_num [entryDecision, dipBuySignal, contBuySignal, rallySellSignal,
      contSellSignal, liveMid, dynamicTpPoints, ctxC10, ordC10, stdMeta,
      defaultConfig]
  ⟨he, (c10_dynamic_tp defaultConfig stdMeta ctxC10 1 ordC10 he).2.1
    (by norm_num [ordC10])⟩

/-- An active reversal watch after a stopped-out BUY with k confirming
cycles counted and the MA level recorded. -/
def activeBuyW (k : ℕ) (m : ℚ) : ReversalWatch :=
  { active := true, direction := some .buy, count := k, maLevel := some m }

/-- A loop cycle whose bar closes at c with the trend MA at m. -/
def cycOf (c m : ℚ) (b : Bool) : LoopCycle :=
  { barClose := c, isNewBar := b, m5Ma := some m }

/-- Index of the first cycle of a watch trace that confirmed the
reversal. -/
def confirmIdx : List (ReversalWatch × Bool) → Option ℕ
  | [] => none
  | r :: rest => if r.2 then some 0 else (confirmIdx rest).map (· + 1)

/-- A confirming cycle strictly below the threshold increments the counter
by one and does not confirm. -/
theorem reversalStep_confirm_lt (n k : ℕ) (m c : ℚ) (b : Bool)
    (hc : c < m) (hk : k + 1 < n) :
    reversalStep n (activeBuyW k m) (cycOf c m b) =
      (activeBuyW (k + 1) m, false) := by
  have h2 : ¬ (k + 1 ≥ n) := by omega
  simp [reversalStep, activeBuyW, cycOf, hc, h2]

/-- A confirming cycle reaching the threshold confirms and resets. -/
theorem reversalStep_confirm_ge (n k : ℕ) (m c : ℚ) (b : Bool)
    (hc : c < m) (hk : k + 1 ≥ n) :
    reversalStep n (activeBuyW k m) (cycOf c m b) = (watchReset, true) := by
  simp [reversalStep, activeBuyW, cycOf, hc, hk, watchReset]

/-- A disconfirming cycle deactivates the watch and zeroes the counter
without confirming. -/
theorem reversalStep_disconfirm (n k : ℕ) (m c2 : ℚ) (b : Bool)
    (hc : ¬ c2 < m) :
    reversalStep n (activeBuyW k m) (cycOf c2 m b) =
      ({ active := false, direction := some .buy, count := 0,
         maLevel := some m }, false) := by
  simp [reversalStep, activeBuyW, cycOf, hc]

/-- Fewer confirming cycles than the remaining threshold never confirm. -/
theorem watchTrace_confirm_below (n : ℕ) (m c : ℚ) (b : Bool)
    (hc : c < m) :
    ∀ j k, k + j < n →
      confirmIdx (watchTrace n (activeBuyW k m)
        (List.replicate j (cycOf c m b))) = none := by
  intro j
  induction j with
  | zero => intro k _; rfl
  | succ j ih =>
    intro k hk
    rw [List.replicate_succ]
    simp only [watchTrace]
    rw [reversalStep_confirm_lt n k m c b hc (by omega)]
    simp [confirmIdx, ih (k + 1) (by omega)]

/-- Exactly at the threshold the trace confirms on its last cycle. -/
theorem watchTrace_confirm_at (n : ℕ) (m c : ℚ) (b : Bool) (hc : c < m) :
    ∀ j k, k + j = n → 1 ≤ j →
      confirmIdx (watchTrace n (activeBuyW k m)
        (List.replicate j (cycOf c m b))) = some (j - 1) := by
  intro j
  induction j with
  | zero => intro k _ h1; omega
  | succ j ih =>
    intro k hk _
    rw [List.replicate_succ]
    simp only [watchTrace]
    rcases Nat.eq_zero_or_pos j with hj | hj
    · subst hj
      rw [reversalStep_confirm_ge n k m c b hc (by omega)]
      simp [confirmIdx]
    · rw [reversalStep_confirm_lt n k m c b hc (by omega)]
      have hmap : j - 1 + 1 = j := by omega
      simp [confirmIdx, ih (k + 1) (by omega) hj, hmap]

/-- An active reversal watch after a stopped-out SELL with k confirming
cycles counted and the MA level recorded. -/
def activeSellW (k : ℕ) (m : ℚ) : ReversalWatch :=
  { active := true, direction := some .sell, count := k, maLevel := some m }

/-- For a stopped-out SELL, a close above the MA strictly below the
threshold increments the counter by one and does not confirm. -/
theorem reversalStep_sell_confirm_lt (n k : ℕ) (m c : ℚ) (b : Bool)
    (hc : m < c) (hk : k + 1 < n) :
    reversalStep n (activeSellW k m) (cycOf c m b) =
      (activeSellW (k + 1) m, false) := by
  have h2 : ¬ (k + 1 ≥ n) := by omega
  simp [reversalStep, activeSellW, cycOf, hc, h2]

/-- For a stopped-out SELL, a confirming close reaching the threshold
confirms and resets. -/
theorem reversalStep_sell_confirm_ge (n k : ℕ) (m c : ℚ) (b : Bool)
    (hc : m < c) (hk : k + 1 ≥ n) :
    reversalStep n (activeSellW k m) (cycOf c m b) = (watchReset, true) := by
  simp [reversalStep, activeSellW, cycOf, hc, hk, watchReset]

/-- For a stopped-out SELL, a close back at or below the MA deactivates
the watch and zeroes the counter without confirming. -/
theorem reversalStep_sell_disconfirm (n k : ℕ) (m c2 : ℚ) (b : Bool)
    (hc : ¬ m < c2) :
    reversalStep n (activeSellW k m) (cycOf c2 m b) =
      ({ active := false, direction := some .sell, count := 0,
         maLevel := some m }, false) := by
  simp [reversalStep, activeSellW, cycOf, hc]

/-- For a stopped-out SELL, fewer confirming cycles than the remaining
threshold never confirm. -/
theorem watchTrace_sell_confirm_below (n : ℕ) (m c : ℚ) (b : Bool)
    (hc : m < c) :
    ∀ j k, k + j < n →
      confirmIdx (watchTrace n (activeSellW k m)
        (List.replicate j (cycOf c m b))) = none := by
  intro j
  induction j with
  | zero => intro k _; rfl
  | succ j ih =>
    intro k hk
    rw [List.replicate_succ]
    simp only [watchTrace]
    rw [reversalStep_sell_confirm_lt n k m c b hc (by omega)]
    simp [confirmIdx, ih (k + 1) (by omega)]

/-- For a stopped-out SELL, exactly at the threshold the trace confirms on
its last cycle. -/
theorem watchTrace_sell_confirm_at (n : ℕ) (m c : ℚ) (b : Bool)
    (hc : m < c) :
    ∀ j k, k + j = n → 1 ≤ j →
      confirmIdx (watchTrace n (activeSellW k m)
        (List.replicate j (cycOf c m b))) = some (j - 1) := by
  intro j
  induction j with
  | zero => intro k _ h1; omega
  | succ j ih =>
    intro k hk _
    rw [List.replicate_succ]
    simp only [watchTrace]
    rcases Nat.eq_zero_or_pos j with hj | hj
    · subst hj
      rw [reversalStep_sell_confirm_ge n k m c b hc (by omega)]
      simp [confirmIdx]
    · rw [reversalStep_sell_confirm_lt n k m c b hc (by omega)]
      have hmap : j - 1 + 1 = j := by omega
      simp [confirmIdx, ih (k + 1) (by omega) hj, hmap]

/-- Counterexample to C3: the reversal logic runs on every polling cycle
using the latest bar close whether or not a new bar has formed.  With the
shipped threshold of one confirmation bar, an activated watch confirms on
the very next polling cycle even though no new bar has arrived, so the
counter does not advance once per new bar and CONFIRMED can be reached
before the first new confirming bar closes. -/
theorem c3_confirmed_without_new_bar_cex :
    defaultConfig.reversalConfirmationBars = 1 ∧
      (cycOf 99 100 false).isNewBar = false ∧
      watchTrace defaultConfig.reversalConfirmationBars (activeBuyW 0 100)
        [cycOf 99 100 false] = [(watchReset, true)] := by
  refine ⟨rfl, rfl, ?_⟩
  simp only [watchTrace]
  rw [show defaultConfig.reversalConfirmationBars = 1 from rfl,
    reversalStep_confirm_ge 1 0 100 99 false (by norm_num) (by omega)]

/-- C3 amended: the confirmation logic is evaluated once per polling cycle
on the current bar close (new or not).  From activation after a stopped-out
trade of either side, confirming cycles (close below the MA when a BUY was
stopped out, above it when a SELL was) drive the watch to CONFIRMED exactly
at the n-th confirming cycle and not earlier
(n = REVERSAL_CONFIRMATION_BARS), one count per cycle; a single cycle whose
close is back on the original side deactivates the watch and zeroes the
counter; a confirming cycle reaching the threshold clears the post-loss
cooldown (the returned flag) and resets the watch to inactive.  Here c is
any close below the MA level m and c2 any close above it, so c confirms the
BUY-side watch and disconfirms the SELL-side one, and c2 the reverse. -/
theorem c3_per_cycle_confirmation (n : ℕ) (m c c2 : ℚ) (b : Bool)
    (hn : 0 < n) (hc : c < m) (hc2 : m < c2) :
    (∀ j, j < n →
      confirmIdx (watchTrace n (activeBuyW 0 m)
        (List.replicate j (cycOf c m b))) = none) ∧
      confirmIdx (watchTrace n (activeBuyW 0 m)
        (List.replicate n (cycOf c m b))) = some (n - 1) ∧
      reversalStep n (activeBuyW 0 m) (cycOf c2 m b) =
        ({ active := false, direction := some .buy, count := 0,
           maLevel := some m }, false) ∧
      (∀ k, k + 1 ≥ n →
        reversalStep n (activeBuyW k m) (cycOf c m b) = (watchReset, true)) ∧
      (∀ j, j < n →
        confirmIdx (watchTrace n (activeSellW 0 m)
          (List.replicate j (cycOf c2 m b))) = none) ∧
      confirmIdx (watchTrace n (activeSellW 0 m)
        (List.replicate n (cycOf c2 m b))) = some (n - 1) ∧
      reversalStep n (activeSellW 0 m) (cycOf c m b) =
        ({ active := false, direction := some .sell, count := 0,
           maLevel := some m }, false) ∧
      ∀ k, k + 1 ≥ n →
        reversalStep n (activeSellW k m) (cycOf c2 m b) = (watchReset, true) :=
  ⟨fun j hj => watchTrace_confirm_below n m c b hc j 0 (by omega),
    watchTrace_confirm_at n m c b hc n 0 (by omega) hn,
    reversalStep_disconfirm n 0 m c2 b (not_lt.2 (le_of_lt hc2)),
    fun k hk => reversalStep_confirm_ge n k m c b hc hk,
    fun j hj => watchTrace_sell_confirm_below n m c2 b hc2 j 0 (by omega),
    watchTrace_sell_confirm_at n m c2 b hc2 n 0 (by omega) hn,
    reversalStep_sell_disconfirm n 0 m c b (not_lt.2 (le_of_lt hc)),
    fun k hk => reversalStep_sell_confirm_ge n k m c2 b hc2 hk⟩

/-- Witness for c3_per_cycle_confirmation with threshold 2, both sides: one
confirming cycle does not confirm, two do, confirming exactly at the
second. -/
theorem c3_per_cycle_confirmation_witness :
    confirmIdx (watchTrace 2 (activeBuyW 0 100)
        (List.replicate 1 (cycOf 99 100 true))) = none ∧
      confirmIdx (watchTrace 2 (activeBuyW 0 100)
        (List.replicate 2 (cycOf 99 100 true))) = some 1 ∧
      confirmIdx (watchTrace 2 (activeSellW 0 100)
        (List.replicate 1 (cycOf 101 100 true))) = none ∧
      confirmIdx (watchTrace 2 (activeSellW 0 100)
        (List.replicate 2 (cycOf 101 100 true))) = some 1 :=
  ⟨(c3_per_cycle_confirmation 2 100 99 101 true (by norm_num) (by norm_num)
      (by norm_num)).1 1 (by norm_num),
    (c3_per_cycle_confirmation 2 100 99 101 true (by norm_num) (by norm_num)
      (by norm_num)).2.1,
    (c3_per_cycle_confirmation 2 100 99 101 true (by norm_num) (by norm_num)
      (by norm_num)).2.2.2.2.1 1 (by norm_num),
    (c3_per_cycle_confirmation 2 100 99 101 true (by norm_num) (by norm_num)
      (by norm_num)).2.2.2.2.2.1⟩

/-- A config file requesting a risk of 7000 percent of equity per trade. -/
def fileC6 : ConfigFile := { riskPercentPerTrade := some 70 }

/-- Counterexample to C6: loading a file with an absurd risk percent
(70 = 7000 percent of equity) stores the value verbatim; no clamping to any
safety ceiling happens at load time, since any safe bound on the per-trade
risk fraction is at most 1. -/
theorem c6_risk_not_clamped_cex :
    (loadConfigFromFile defaultConfig (some fileC6)).riskPercentPerTrade = 70 ∧
      (70 : ℚ) > 1 :=
  ⟨rfl, by norm_num⟩

/-- C6 amended: load_config_from_file performs no range validation at all:
a missing or unreadable file leaves the configuration unchanged, every key
present in the file replaces the current value verbatim (including the risk
percent), missing keys keep their current values, and keys outside the
reload list are never touched. -/
theorem c6_config_load_verbatim (cur : Config) (f : ConfigFile) :
    loadConfigFromFile cur none = cur ∧
      (loadConfigFromFile cur (some f)).riskPercentPerTrade =
        f.riskPercentPerTrade.getD cur.riskPercentPerTrade ∧
      (loadConfigFromFile cur (some f)).maxSpreadPoints =
        f.maxSpreadPoints.getD cur.maxSpreadPoints ∧
      (loadConfigFromFile cur (some f)).rsiOversold =
        f.rsiOversold.getD cur.rsiOversold ∧
      (loadConfigFromFile cur (some f)).rsiOverbought =
        f.rsiOverbought.getD cur.rsiOverbought ∧
      (loadConfigFromFile cur (some f)).slPoints =
        f.slPoints.getD cur.slPoints ∧
      (loadConfigFromFile cur (some f)).tpPoints =
        f.tpPoints.getD cur.tpPoints ∧
      (loadConfigFromFile cur (some f)).maxHoldTimeSeconds =
        f.maxHoldTimeSeconds.getD cur.maxHoldTimeSeconds ∧
      (loadConfigFromFile cur (some f)).numConcurrentTrades =
        f.numConcurrentTrades.getD cur.numConcurrentTrades ∧
      (loadConfigFromFile cur (some f)).breakEvenProfitPoints =
        f.breakEvenProfitPoints.getD cur.breakEvenProfitPoints ∧
      (loadConfigFromFile cur (some f)).atrMultiplier =
        f.atrMultiplier.getD cur.atrMultiplier ∧
      (loadConfigFromFile cur (some f)).cooldownAfterTradeSeconds =
        f.cooldownAfterTradeSeconds.getD cur.cooldownAfterTradeSeconds ∧
      (loadConfigFromFile cur (some f)).partProfitTriggerPoints =
        cur.partProfitTriggerPoints ∧
      (loadConfigFromFile cur (some f)).maxAdverseExcursionClosePoints =
        cur.maxAdverseExcursionClosePoints ∧
      (loadConfigFromFile cur (some f)).reversalConfirmationBars =
        cur.reversalConfirmationBars :=
  ⟨rfl, rfl, rfl, rfl, rfl, rfl, rfl, rfl, rfl, rfl, rfl, rfl, rfl, rfl, rfl⟩

/-- The Wilder fold keeps nonnegative inputs nonnegative for a smoothing
divisor of at least one. -/
theorem wilder_foldl_nonneg (p : ℚ) (hp : 1 ≤ p) :
    ∀ (l : List ℚ) (a : ℚ), 0 ≤ a → (∀ x ∈ l, 0 ≤ x) →
      0 ≤ l.foldl (fun y v => y + (v - y) / p) a := by
  intro l
  induction l with
  | nil => intro a ha _; simpa using ha
  | cons x l ih =>
    intro a ha hx
    rw [List.foldl_cons]
    apply ih
    · have hx0 : 0 ≤ x := hx x (List.mem_cons_self x l)
      have hp0 : (0:ℚ) < p := by linarith
      have hnum : 0 ≤ a * (p - 1) + x := by nlinarith
      have hexp : a + (x - a) / p = (a * (p - 1) + x) / p := by
        field_simp
        ring
      rw [hexp]
      exact div_nonneg hnum (le_of_lt hp0)
    · intro y hy
      exact hx y (List.mem_cons_of_mem x hy)

/-- All smoothed gains are nonnegative. -/
theorem avgGainLast_nonneg (p : ℕ) (hp : 0 < p) (closes : List ℚ) :
    0 ≤ avgGainLast p closes := by
  unfold avgGainLast gainsOf wilderLast
  have hp1 : (1:ℚ) ≤ (p:ℚ) := by exact_mod_cast hp
  apply wilder_foldl_nonneg (p:ℚ) hp1
  · exact le_refl 0
  · intro x hx
    rcases List.mem_map.1 hx with ⟨d, -, rfl⟩
    by_cases hd : d > 0
    · rw [if_pos hd]; linarith
    · rw [if_neg hd]

/-- Fifteen identical closes: a flat market at the RSI lookback length. -/
def closesC7 : List ℚ := [1, 1, 1, 1, 1, 1, 1, 1, 1, 1, 1, 1, 1, 1, 1]

/-- Counterexample to C7: on a perfectly flat series the Wilder average
loss is zero, yet the RSI pipeline returns 0, not 100: the average gain is
also zero, so rs is NaN (0/0), the NaN propagates to the RSI and the final
fillna(0) turns it into 0. -/
theorem c7_flat_rsi_zero_cex :
    avgLossLast 14 closesC7 = 0 ∧
      14 + 1 ≤ closesC7.length ∧
      calculateRsiLast 14 closesC7 = some 0 ∧
      (0 : ℚ) ≠ 100 := by
  have hl : avgLossLast 14 closesC7 = 0 := by
    norm_num [avgLossLast, lossesOf, diffs, wilderLast, closesC7]
  have hg : avgGainLast 14 closesC7 = 0 := by
    norm_num [avgGainLast, gainsOf, diffs, wilderLast, closesC7]
  refine ⟨hl, by norm_num [closesC7], ?_, by norm_num⟩
  unfold calculateRsiLast
  rw [if_neg (by norm_num [closesC7])]
  unfold rsiLastPF
  rw [hl, hg]
  decide

/-- C7 amended: whenever the Wilder average loss is zero on a series long
enough for the lookback, the RSI at the last bar is 100 only if the average
gain is nonzero (rs = plus infinity); when gain and loss are both zero
(flat market) the 0/0 NaN is filled with 0 and the RSI is 0. -/
theorem c7_rsi_zero_avg_loss (p : ℕ) (closes : List ℚ) (hp : 0 < p)
    (hlen : p + 1 ≤ closes.length) (hloss : avgLossLast p closes = 0) :
    calculateRsiLast p closes =
      some (if avgGainLast p closes = 0 then 0 else 100) := by
  unfold calculateRsiLast
  rw [if_neg (by omega)]
  unfold rsiLastPF
  rw [hloss]
  by_cases hg : avgGainLast p closes = 0
  · rw [if_pos hg, hg]
    decide
  · have hgpos : 0 < avgGainLast p closes :=
      lt_of_le_of_ne (avgGainLast_nonneg p hp closes) (Ne.symm hg)
    rw [if_neg hg]
    have hdiv : PF.div (.num (avgGainLast p closes)) (.num 0) = PF.inf := by
      show (if (0:ℚ) = 0 then
          (if avgGainLast p closes > 0 then PF.inf
           else if avgGainLast p closes < 0 then PF.ninf else PF.nan)
        else PF.num (avgGainLast p closes / 0)) = PF.inf
      rw [if_pos rfl, if_pos hgpos]
    rw [hdiv]
    show some (min 100 (max 0 ((100:ℚ) - 0))) = some 100
    norm_num

/-- Witness for c7_rsi_zero_avg_loss on the flat series. -/
theorem c7_rsi_zero_avg_loss_witness :
    calculateRsiLast 14 closesC7 = some 0 := by
  have hgn : avgGainLast 14 closesC7 = 0 := by
    norm_num [avgGainLast, gainsOf, diffs, wilderLast, closesC7]
  have h := c7_rsi_zero_avg_loss 14 closesC7 (by norm_num)
    (by norm_num [closesC7])
    (by norm_num [avgLossLast, lossesOf, diffs, wilderLast, closesC7])
  rw [h, if_pos hgn]

/-- The seed of a max fold bounds the fold from below. -/
theorem foldl_max_le_init (a : ℚ) (l : List ℚ) : a ≤ l.foldl max a := by
  induction l generalizing a with
  | nil => simp
  | cons x xs ih => exact le_trans (le_max_left a x) (ih (max a x))

/-- Every member of a list bounds its max fold from below. -/
theorem le_foldl_max (l : List ℚ) (a x : ℚ) (hx : x ∈ l) :
    x ≤ l.foldl max a := by
  induction l generalizing a with
  | nil => cases hx
  | cons y ys ih =>
    rw [List.foldl_cons]
    rcases List.mem_cons.1 hx with rfl | hmem
    · exact le_trans (le_max_right a x) (foldl_max_le_init (max a x) ys)
    · exact ih (max a y) hmem

/-- listMax bounds every member from above. -/
theorem le_listMax (l : List ℚ) (x : ℚ) (hx : x ∈ l) : x ≤ listMax l := by
  cases l with
  | nil => cases hx
  | cons y ys =>
    unfold listMax
    rcases List.mem_cons.1 hx with rfl | hmem
    · exact foldl_max_le_init x ys
    · exact le_foldl_max ys y x hmem

/-- The seed of a min fold bounds the fold from above. -/
theorem foldl_min_init_le (a : ℚ) (l : List ℚ) : l.foldl min a ≤ a := by
  induction l generalizing a with
  | nil => simp
  | cons x xs ih => exact le_trans (ih (min a x)) (min_le_left a x)

/-- Every member of a list bounds its min fold from above. -/
theorem foldl_min_le (l : List ℚ) (a x : ℚ) (hx : x ∈ l) :
    l.foldl min a ≤ x := by
  induction l generalizing a with
  | nil => cases hx
  | cons y ys ih =>
    rw [List.foldl_cons]
    rcases List.mem_cons.1 hx with rfl | hmem
    · exact le_trans (foldl_min_init_le (min a x) ys) (min_le_right a x)
    · exact ih (min a y) hmem

/-- listMin bounds every member from below. -/
theorem listMin_le (l : List ℚ) (x : ℚ) (hx : x ∈ l) : listMin l ≤ x := by
  cases l with
  | nil => cases hx
  | cons y ys =>
    unfold listMin
    rcases List.mem_cons.1 hx with rfl | hmem
    · exact foldl_min_init_le x ys
    · exact foldl_min_le ys y x hmem

/-- The default-armed head of a nonempty list is a member. -/
theorem headD_mem (l : List ℚ) (h : l ≠ []) : l.headD 0 ∈ l := by
  cases l with
  | nil => exact absurd rfl h
  | cons y ys => exact List.mem_cons_self y ys

/-- The default-armed last element of a nonempty list is a member. -/
theorem getLastD_mem (l : List ℚ) (h : l ≠ []) : l.getLastD 0 ∈ l := by
  cases l with
  | nil => exact absurd rfl h
  | cons y ys =>
    rw [List.getLastD_cons]
    exact List.getLastD_mem_cons ys y

/-- The bar built for a bucket is stamped with that bucket time. -/
theorem barOfBucket_time (ivl : ℕ) (ticks : List Tick) (b : ℕ) :
    (barOfBucket ivl ticks b).barStartTime = b := rfl

/-- The bars of one tick batch carry strictly increasing bucket times. -/
theorem getCustomBars_time_pairwise (ivl : ℕ) (ticks : List Tick) :
    (getCustomBarsFromTicks ivl ticks).Pairwise
      (fun a b => a.barStartTime < b.barStartTime) := by
  unfold getCustomBarsFromTicks
  rw [List.pairwise_map]
  have hs : (bucketKeys ivl ticks).Sorted (· < ·) := by
    unfold bucketKeys
    exact Finset.sort_sorted_lt _
  exact hs.imp fun {a b} h => by
    rw [barOfBucket_time, barOfBucket_time]; exact h

/-- Each bar of one tick batch satisfies the OHLC band: the open and close
lie between the low and the high. -/
theorem getCustomBars_ohlc (ivl : ℕ) (ticks : List Tick) (b : Bar)
    (hb : b ∈ getCustomBarsFromTicks ivl ticks) :
    b.lowPrice ≤ b.openPrice ∧ b.openPrice ≤ b.highPrice ∧
      b.lowPrice ≤ b.closePrice ∧ b.closePrice ≤ b.highPrice := by
  unfold getCustomBarsFromTicks at hb
  rcases List.mem_map.1 hb with ⟨k, hk, rfl⟩
  unfold bucketKeys at hk
  have hkf := (Finset.mem_sort (α := ℕ) (· ≤ ·)).1 hk
  rw [List.mem_toFinset] at hkf
  rcases List.mem_map.1 hkf with ⟨t, ht, hbt⟩
  have hg : t ∈ ticks.filter (fun u => barTimeOf ivl u = k) := by
    rw [List.mem_filter]
    exact ⟨ht, by simp [hbt]⟩
  have hmem : tickMid t ∈
      (ticks.filter (fun u => barTimeOf ivl u = k)).map tickMid :=
    List.mem_map_of_mem tickMid hg
  have hne : (ticks.filter (fun u => barTimeOf ivl u = k)).map tickMid ≠ [] :=
    List.ne_nil_of_mem hmem
  simp only [barOfBucket]
  refine ⟨listMin_le _ _ (headD_mem _ hne), le_listMax _ _ (headD_mem _ hne),
    listMin_le _ _ (getLastD_mem _ hne), le_listMax _ _ (getLastD_mem _ hne)⟩

/-- The deduplication pass keeps a sublist of its input. -/
theorem dropDupRows_go_sublist :
    ∀ (l seen : List Bar), (dropDupRows.go seen l).Sublist l := by
  intro l
  induction l with
  | nil => intro seen; exact List.Sublist.refl []
  | cons b rest ih =>
    intro seen
    unfold dropDupRows.go
    split_ifs with h
    · exact List.Sublist.cons b (ih seen)
    · exact List.Sublist.cons₂ b (ih (b :: seen))

/-- drop_duplicates keeps a sublist of its input. -/
theorem dropDupRows_sublist (l : List Bar) : (dropDupRows l).Sublist l :=
  dropDupRows_go_sublist l []

/-- In a strictly time-sorted bar list every member time is bounded by the
time of the last bar. -/
theorem pairwise_lt_le_getLast :
    ∀ (l : List Bar),
      l.Pairwise (fun a b => a.barStartTime < b.barStartTime) →
      ∀ x ∈ l, ∀ g, l.getLast? = some g →
        x.barStartTime ≤ g.barStartTime := by
  intro l
  induction l with
  | nil => intro _ x hx; cases hx
  | cons y ys ih =>
    intro hp x hx g hg
    cases ys with
    | nil =>
      simp only [List.mem_singleton] at hx
      simp only [List.getLast?_singleton, Option.some.injEq] at hg
      subst hx
      subst hg
      exact le_refl _
    | cons z zs =>
      rw [List.getLast?_cons_cons] at hg
      rcases List.mem_cons.1 hx with rfl | hmem
      · have hall := (List.pairwise_cons.1 hp).1
        exact le_of_lt (hall g (List.mem_of_getLast?_eq_some hg))
      · exact ih (List.pairwise_cons.1 hp).2 x hmem g hg

instance : IsTotal Bar (fun a b => a.barStartTime ≤ b.barStartTime) :=
  ⟨fun a b => le_total a.barStartTime b.barStartTime⟩

instance : IsTrans Bar (fun a b => a.barStartTime ≤ b.barStartTime) :=
  ⟨fun _ _ _ hab hbc => le_trans hab hbc⟩

/-- The retained-window update preserves strictly increasing, unique bar
start times. -/
theorem updateWindow_pairwise (window newBars : List Bar) (k : ℕ)
    (hw : window.Pairwise (fun a b => a.barStartTime < b.barStartTime))
    (hn : newBars.Pairwise (fun a b => a.barStartTime < b.barStartTime)) :
    (updateWindow window newBars k).Pairwise
      (fun a b => a.barStartTime < b.barStartTime) := by
  unfold updateWindow
  set fr := newBars.filter (fun b =>
    match window.getLast?.map Bar.barStartTime with
    | some t => decide (t < b.barStartTime)
    | none => true) with hfr
  by_cases hf : fr.isEmpty
  · rw [if_pos hf]
    exact hw
  · rw [if_neg hf]
    have hfp : fr.Pairwise (fun a b => a.barStartTime < b.barStartTime) := by
      rw [hfr]
      exact hn.filter _
    have hcross : ∀ a ∈ window, ∀ b ∈ fr,
        a.barStartTime < b.barStartTime := by
      intro a ha b hb
      rw [hfr] at hb
      rcases List.mem_filter.1 hb with ⟨-, hpred⟩
      cases hlast : window.getLast? with
      | none =>
        rw [List.getLast?_eq_none_iff] at hlast
        subst hlast
        cases ha
      | some g =>
        rw [hlast] at hpred
        simp only [Option.map_some', decide_eq_true_eq] at hpred
        exact lt_of_le_of_lt (pairwise_lt_le_getLast window hw a ha g hlast)
          hpred
    have hcat := List.pairwise_append.2 ⟨hw, hfp, hcross⟩
    have hdrop := List.Pairwise.sublist (dropDupRows_sublist _) hcat
    have hsorted : (sortByTime (dropDupRows (window ++ fr))).Pairwise
        (fun a b => a.barStartTime ≤ b.barStartTime) :=
      List.sorted_insertionSort _ _
    have hne : (dropDupRows (window ++ fr)).Pairwise
        (fun a b => a.barStartTime ≠ b.barStartTime) := by
      refine hdrop.imp ?_
      intro a b h
      exact ne_of_lt h
    have hperm := List.perm_insertionSort
      (fun a b : Bar => a.barStartTime ≤ b.barStartTime)
      (dropDupRows (window ++ fr))
    have hne2 := (hperm.pairwise_iff
      (fun {x y} (h : x.barStartTime ≠ y.barStartTime) => h.symm)).2 hne
    have hlt := List.Pairwise.imp₂
      (fun (a b : Bar) (h1 : a.barStartTime ≤ b.barStartTime)
        (h2 : a.barStartTime ≠ b.barStartTime) => lt_of_le_of_ne h1 h2)
      hsorted hne2
    rw [← hfr]
    show (if (sortByTime (dropDupRows (window ++ fr))).length > k then
        List.drop ((sortByTime (dropDupRows (window ++ fr))).length - k)
          (sortByTime (dropDupRows (window ++ fr)))
      else sortByTime (dropDupRows (window ++ fr))).Pairwise
        (fun a b => a.barStartTime < b.barStartTime)
    split_ifs
    · exact List.Pairwise.sublist (List.drop_sublist _ _) hlt
    · exact hlt

/-- C5: bars built by the aggregator have strictly increasing, unique
bar start times; every bar satisfies low at most open and close, open and
close at most high; and the retained-window update of the strategy loop
preserves the strictly increasing, unique time invariant. -/
theorem c5_bar_invariants :
    (∀ (ivl : ℕ) (ticks : List Tick),
      (getCustomBarsFromTicks ivl ticks).Pairwise
        (fun a b => a.barStartTime < b.barStartTime)) ∧
      (∀ (ivl : ℕ) (ticks : List Tick) (b : Bar),
        b ∈ getCustomBarsFromTicks ivl ticks →
          b.lowPrice ≤ b.openPrice ∧ b.openPrice ≤ b.highPrice ∧
            b.lowPrice ≤ b.closePrice ∧ b.closePrice ≤ b.highPrice) ∧
      (∀ (window newBars : List Bar) (k : ℕ),
        window.Pairwise (fun a b => a.barStartTime < b.barStartTime) →
        newBars.Pairwise (fun a b => a.barStartTime < b.barStartTime) →
        (updateWindow window newBars k).Pairwise
          (fun a b => a.barStartTime < b.barStartTime)) :=
  ⟨getCustomBars_time_pairwise, getCustomBars_ohlc, updateWindow_pairwise⟩

/-- A two-bar retained window with whole-number prices. -/
def winC5 : List Bar :=
  [{ barStartTime := 0, openPrice := 1, highPrice := 2, lowPrice := 1,
     closePrice := 2, realVolume := 1 },
   { barStartTime := 5, openPrice := 2, highPrice := 3, lowPrice := 2,
     closePrice := 3, realVolume := 1 }]

/-- A one-bar batch arriving after winC5. -/
def newC5 : List Bar :=
  [{ barStartTime := 10, openPrice := 3, highPrice := 4, lowPrice := 3,
     closePrice := 4, realVolume := 1 }]

/-- Witness for c5_bar_invariants on a concrete window update. -/
theorem c5_bar_invariants_witness :
    (updateWindow winC5 newC5 50).Pairwise
      (fun a b => a.barStartTime < b.barStartTime) :=
  c5_bar_invariants.2.2 winC5 newC5 50 (by decide) (by decide)

end GoldBot